import Mathlib

/-!
# Verification of the AlgoTradeCompanion backtesting and risk-metric core

A shallow embedding of the backtesting simulation
(BacktestingService.runBacktest / simulateBacktest) and of the portfolio
risk-metric calculator (RiskManagementService), together with theorems
settling the specification's claims about them.

Conventions of the embedding:
* JavaScript numbers are modelled as exact rationals (ℚ); quantities whose
  computation genuinely requires a square root (Sharpe ratio, volatility)
  live in ℝ.
* Timestamps (millisecond epoch values produced by Date.getTime) are ℤ.
* The simulation's random draws are supplied explicitly as a stream
  ℕ → Option TradeDraw: for each day index, either no trade (the 90% branch)
  or the drawn trade data (the 10% branch).
* JavaScript division by zero yields NaN/Infinity while ℚ division by zero
  yields 0; at every point where the source can divide by zero the
  surrounding guard makes the final observable result agree (noted locally).
-/

namespace AlgoTrade

/-- One portfolio-history record (millisecond timestamp, total portfolio
value), as returned by storage.getPortfolioHistory and consumed by
RiskManagementService. -/
structure PortfolioRecord where
  timestamp : ℤ
  totalValue : ℚ
deriving DecidableEq

/-- The result of RiskManagementService.calculateDrawdown: both percentages. -/
structure DrawdownResult where
  currentDrawdown : ℚ
  maxDrawdown : ℚ
deriving DecidableEq

/-- RiskManagementService.calculateDrawdown, as a function of the fetched
portfolio-history window.  Empty history returns zeros; otherwise the peak
starts at the first record's value, every record updates the peak and the
running maximum of (peak − value)/peak × 100, and the current drawdown is
computed from the final peak against the last record. -/
def calculateDrawdown (portfolioHistory : List PortfolioRecord) : DrawdownResult :=
  match portfolioHistory with
  | [] => ⟨0, 0⟩
  | first :: _ =>
    let res := portfolioHistory.foldl
      (fun acc record =>
        let peak := if record.totalValue > acc.1 then record.totalValue else acc.1
        let drawdown := (peak - record.totalValue) / peak * 100
        (peak, max acc.2 drawdown))
      (first.totalValue, 0)
    let currentValue := (portfolioHistory.getLast?.getD first).totalValue
    ⟨(res.1 - currentValue) / res.1 * 100, res.2⟩

/-- One step of the running peak / running max-drawdown recurrence that both
RiskManagementService.calculateDrawdown and the day loop of
BacktestingService.simulateBacktest perform on each successive value. -/
def ddStep (acc : ℚ × ℚ) (v : ℚ) : ℚ × ℚ :=
  let peak := if v > acc.1 then v else acc.1
  let drawdown := (peak - v) / peak * 100
  (peak, if drawdown > acc.2 then drawdown else acc.2)

/-- The running peak / max-drawdown recurrence folded over a value series. -/
def ddFold (init : ℚ × ℚ) (values : List ℚ) : ℚ × ℚ :=
  values.foldl ddStep init

theorem ddFold_nil (init : ℚ × ℚ) : ddFold init [] = init := rfl

theorem ddFold_cons (init : ℚ × ℚ) (v : ℚ) (vs : List ℚ) :
    ddFold init (v :: vs) = ddFold (ddStep init v) vs := rfl

theorem ddFold_concat (init : ℚ × ℚ) (vs : List ℚ) (v : ℚ) :
    ddFold init (vs ++ [v]) = ddStep (ddFold init vs) v := by
  simp [ddFold, List.foldl_append]

/-- Taking the larger of the running maximum and the new drawdown is the same
whether written with max (calculateDrawdown) or with a strict comparison
(simulateBacktest). -/
theorem max_eq_if_gt (m d : ℚ) : max m d = if d > m then d else m := by
  rcases le_or_lt d m with h | h
  · simp [max_eq_left h, not_lt.mpr h]
  · simp [max_eq_right h.le, h]

/-- The maxDrawdown computed by calculateDrawdown is the ddFold recurrence
seeded with the first record's value, run over the whole value series. -/
theorem calculateDrawdown_maxDrawdown_eq_ddFold (first : PortfolioRecord)
    (rest : List PortfolioRecord) :
    (calculateDrawdown (first :: rest)).maxDrawdown =
      (ddFold (first.totalValue, 0) ((first :: rest).map PortfolioRecord.totalValue)).2 := by
  simp only [calculateDrawdown, ddFold, List.foldl_map]
  rw [List.foldl_ext]
  intro acc record _
  simp only [ddStep]
  rw [max_eq_if_gt]

/-- Likewise the final peak of calculateDrawdown is the first component of
the ddFold recurrence. -/
theorem calculateDrawdown_peak_eq_ddFold (first : PortfolioRecord)
    (rest : List PortfolioRecord) :
    ((first :: rest).foldl
      (fun acc record =>
        let peak := if record.totalValue > acc.1 then record.totalValue else acc.1
        let drawdown := (peak - record.totalValue) / peak * 100
        (peak, max acc.2 drawdown))
      (first.totalValue, 0)) =
      ddFold (first.totalValue, 0) ((first :: rest).map PortfolioRecord.totalValue) := by
  simp only [ddFold, List.foldl_map]
  rw [List.foldl_ext]
  intro acc record _
  simp only [ddStep]
  rw [max_eq_if_gt]

/-- Invariant of the recurrence over strictly positive values: the peak stays
positive and only grows, and the running maximum stays inside [0, 100). -/
theorem ddFold_invariant (values : List ℚ) :
    ∀ p m : ℚ, 0 < p → 0 ≤ m → m < 100 → (∀ v ∈ values, 0 < v) →
      0 < (ddFold (p, m) values).1 ∧ p ≤ (ddFold (p, m) values).1 ∧
        0 ≤ (ddFold (p, m) values).2 ∧ (ddFold (p, m) values).2 < 100 := by
  induction values with
  | nil => intro p m hp hm0 hm1 _; exact ⟨hp, le_refl p, hm0, hm1⟩
  | cons v vs ih =>
    intro p m hp hm0 hm1 hall
    have hv : 0 < v := hall v (List.mem_cons_self v vs)
    have hrest : ∀ w ∈ vs, 0 < w := fun w hw => hall w (List.mem_cons_of_mem v hw)
    have hpeakfacts : 0 < (if v > p then v else p) ∧ p ≤ (if v > p then v else p) ∧
        v ≤ (if v > p then v else p) := by
      by_cases h : v > p
      · rw [if_pos h]; exact ⟨hv, le_of_lt h, le_refl v⟩
      · rw [if_neg h]; exact ⟨hp, le_refl p, le_of_not_lt h⟩
    set peak := if v > p then v else p with hpeak
    obtain ⟨hpeak_pos, hpeak_ge_p, hpeak_ge_v⟩ := hpeakfacts
    have hdd0 : 0 ≤ (peak - v) / peak * 100 := by
      have : 0 ≤ peak - v := by linarith
      positivity
    have hdd1 : (peak - v) / peak * 100 < 100 := by
      have h1 : (peak - v) / peak < 1 := by
        rw [div_lt_one hpeak_pos]; linarith
      linarith
    have hm' : 0 ≤ (if (peak - v) / peak * 100 > m then (peak - v) / peak * 100 else m) ∧
        (if (peak - v) / peak * 100 > m then (peak - v) / peak * 100 else m) < 100 := by
      by_cases h : (peak - v) / peak * 100 > m <;> simp [h, hdd0, hdd1, hm0, hm1]
    rw [ddFold_cons]
    have hstep : ddStep (p, m) v =
        (peak, if (peak - v) / peak * 100 > m then (peak - v) / peak * 100 else m) := rfl
    rw [hstep]
    have := ih peak _ hpeak_pos hm'.1 hm'.2 hrest
    exact ⟨this.1, le_trans hpeak_ge_p this.2.1, this.2.2.1, this.2.2.2⟩

/-- The currentDrawdown computed by calculateDrawdown, written through the
ddFold recurrence: final peak against the last record's value. -/
theorem calculateDrawdown_currentDrawdown_eq_ddFold (first : PortfolioRecord)
    (rest : List PortfolioRecord) :
    (calculateDrawdown (first :: rest)).currentDrawdown =
      ((ddFold (first.totalValue, 0) ((first :: rest).map PortfolioRecord.totalValue)).1 -
          (((first :: rest).getLast?.getD first).totalValue)) /
        (ddFold (first.totalValue, 0) ((first :: rest).map PortfolioRecord.totalValue)).1 * 100 := by
  simp only [calculateDrawdown]
  rw [calculateDrawdown_peak_eq_ddFold]

/-- C2 (amended): for every non-empty portfolio-history sequence whose values
are all strictly positive, the computed max drawdown lies between 0 and 100.
(Without the positivity restriction the bound fails, see the
counterexample.) -/
theorem calculateDrawdown_maxDrawdown_bounds (portfolioHistory : List PortfolioRecord)
    (hne : portfolioHistory ≠ [])
    (hpos : ∀ r ∈ portfolioHistory, 0 < r.totalValue) :
    0 ≤ (calculateDrawdown portfolioHistory).maxDrawdown ∧
      (calculateDrawdown portfolioHistory).maxDrawdown ≤ 100 := by
  match portfolioHistory, hne with
  | first :: rest, _ =>
    rw [calculateDrawdown_maxDrawdown_eq_ddFold]
    have hfirst : 0 < first.totalValue := hpos first (List.mem_cons_self first rest)
    have hall : ∀ v ∈ (first :: rest).map PortfolioRecord.totalValue, 0 < v := by
      intro v hv
      obtain ⟨r, hr, rfl⟩ := List.mem_map.mp hv
      exact hpos r hr
    have hinv := ddFold_invariant ((first :: rest).map PortfolioRecord.totalValue)
      first.totalValue 0 hfirst (le_refl 0) (by norm_num) hall
    exact ⟨hinv.2.2.1, le_of_lt hinv.2.2.2⟩

/-- C2 counterexample: with a value series that turns negative (the source
does not clamp portfolio values), the max drawdown exceeds 100: for the
history [100, -50] it is 150. -/
theorem calculateDrawdown_maxDrawdown_cex :
    ¬ (0 ≤ (calculateDrawdown [⟨0, 100⟩, ⟨1, -50⟩]).maxDrawdown ∧
        (calculateDrawdown [⟨0, 100⟩, ⟨1, -50⟩]).maxDrawdown ≤ 100) := by
  norm_num [calculateDrawdown]

/-- C2 witness: the spec's own scenario series [100, 120, 90, 110] is
strictly positive and its max drawdown obeys the bounds. -/
theorem calculateDrawdown_maxDrawdown_bounds_witness :
    (∀ r ∈ ([⟨0, 100⟩, ⟨1, 120⟩, ⟨2, 90⟩, ⟨3, 110⟩] : List PortfolioRecord),
        0 < r.totalValue) ∧
      (0 ≤ (calculateDrawdown [⟨0, 100⟩, ⟨1, 120⟩, ⟨2, 90⟩, ⟨3, 110⟩]).maxDrawdown ∧
        (calculateDrawdown [⟨0, 100⟩, ⟨1, 120⟩, ⟨2, 90⟩, ⟨3, 110⟩]).maxDrawdown ≤ 100) :=
  ⟨by decide,
    calculateDrawdown_maxDrawdown_bounds [⟨0, 100⟩, ⟨1, 120⟩, ⟨2, 90⟩, ⟨3, 110⟩]
      (by decide) (by decide)⟩

/-- C10: for every non-empty, strictly positive portfolio-history window the
current drawdown is non-negative and never exceeds the max drawdown reported
for the same window. -/
theorem calculateDrawdown_current_le_max (portfolioHistory : List PortfolioRecord)
    (hne : portfolioHistory ≠ [])
    (hpos : ∀ r ∈ portfolioHistory, 0 < r.totalValue) :
    0 ≤ (calculateDrawdown portfolioHistory).currentDrawdown ∧
      (calculateDrawdown portfolioHistory).currentDrawdown ≤
        (calculateDrawdown portfolioHistory).maxDrawdown := by
  match portfolioHistory, hne with
  | first :: rest, _ =>
    rw [calculateDrawdown_maxDrawdown_eq_ddFold, calculateDrawdown_currentDrawdown_eq_ddFold]
    rcases (first :: rest).eq_nil_or_concat' with habs | ⟨L, x, hLx⟩
    · exact absurd habs (List.cons_ne_nil first rest)
    have hlast : (first :: rest).getLast?.getD first = x := by
      rw [hLx, List.getLast?_concat]
      rfl
    have hmapLx : (first :: rest).map PortfolioRecord.totalValue =
        L.map PortfolioRecord.totalValue ++ [x.totalValue] := by
      rw [hLx, List.map_append]
      rfl
    have hfirst : 0 < first.totalValue := hpos first (List.mem_cons_self first rest)
    have hallL : ∀ v ∈ L.map PortfolioRecord.totalValue, 0 < v := by
      intro v hv
      obtain ⟨r, hr, rfl⟩ := List.mem_map.mp hv
      exact hpos r (by rw [hLx]; exact List.mem_append_left [x] hr)
    have hinvL := ddFold_invariant (L.map PortfolioRecord.totalValue)
      first.totalValue 0 hfirst (le_refl 0) (by norm_num) hallL
    have hxpos : 0 < x.totalValue := hpos x (by rw [hLx]; exact List.mem_append_right L (List.mem_singleton_self x))
    rw [hlast, hmapLx, ddFold_concat]
    set q := ddFold (first.totalValue, 0) (L.map PortfolioRecord.totalValue) with hq
    have hstep : ddStep q x.totalValue =
        (if x.totalValue > q.1 then x.totalValue else q.1,
          if ((if x.totalValue > q.1 then x.totalValue else q.1) - x.totalValue) /
              (if x.totalValue > q.1 then x.totalValue else q.1) * 100 > q.2
            then ((if x.totalValue > q.1 then x.totalValue else q.1) - x.totalValue) /
              (if x.totalValue > q.1 then x.totalValue else q.1) * 100
            else q.2) := rfl
    rw [hstep]
    have hpeakfacts : 0 < (if x.totalValue > q.1 then x.totalValue else q.1) ∧
        x.totalValue ≤ (if x.totalValue > q.1 then x.totalValue else q.1) := by
      by_cases h : x.totalValue > q.1
      · rw [if_pos h]; exact ⟨hxpos, le_refl _⟩
      · rw [if_neg h]; exact ⟨hinvL.1, le_of_not_lt h⟩
    set P := if x.totalValue > q.1 then x.totalValue else q.1 with hP
    have hdd0 : 0 ≤ (P - x.totalValue) / P * 100 := by
      have h1 : 0 ≤ P - x.totalValue := by linarith [hpeakfacts.2]
      have h2 : 0 < P := hpeakfacts.1
      positivity
    constructor
    · exact hdd0
    · by_cases h : (P - x.totalValue) / P * 100 > q.2
      · rw [if_pos h]
      · rw [if_neg h]
        exact le_of_not_lt h

/-- C10 witness: the bounds hold on a concrete positive history. -/
theorem calculateDrawdown_current_le_max_witness :
    (∀ r ∈ ([⟨0, 100⟩, ⟨1, 120⟩, ⟨2, 90⟩, ⟨3, 110⟩] : List PortfolioRecord),
        0 < r.totalValue) ∧
      (0 ≤ (calculateDrawdown [⟨0, 100⟩, ⟨1, 120⟩, ⟨2, 90⟩, ⟨3, 110⟩]).currentDrawdown ∧
        (calculateDrawdown [⟨0, 100⟩, ⟨1, 120⟩, ⟨2, 90⟩, ⟨3, 110⟩]).currentDrawdown ≤
          (calculateDrawdown [⟨0, 100⟩, ⟨1, 120⟩, ⟨2, 90⟩, ⟨3, 110⟩]).maxDrawdown) :=
  ⟨by decide,
    calculateDrawdown_current_le_max [⟨0, 100⟩, ⟨1, 120⟩, ⟨2, 90⟩, ⟨3, 110⟩]
      (by decide) (by decide)⟩

/-! ## Return series and statistics -/

/-- Consecutive-day relative returns (value[i] − value[i−1]) / value[i−1],
computed by BacktestingService.simulateBacktest (from dailyValues) and by
RiskManagementService.calculateDailyReturns (from portfolio history). -/
def dailyReturns (values : List ℚ) : List ℚ :=
  (values.zip values.tail).map (fun p => (p.2 - p.1) / p.1)

/-- RiskManagementService.calculateDailyReturns: the consecutive returns of
the totalValue series of a portfolio-history window. -/
def calculateDailyReturns (portfolioHistory : List PortfolioRecord) : List ℚ :=
  (portfolioHistory.zip portfolioHistory.tail).map
    (fun p => (p.2.totalValue - p.1.totalValue) / p.1.totalValue)

/-- Arithmetic mean of a return series as both services compute it
(sum / length; the empty case divides by zero, which ℚ sends to 0 while
JavaScript produces NaN — every consumer guards the empty case so the final
observable values agree). -/
def mean (returns : List ℚ) : ℚ :=
  returns.sum / returns.length

/-- Population variance of a return series as both services compute it:
mean squared deviation from the mean, dividing by n (not n − 1). -/
def popVariance (returns : List ℚ) : ℚ :=
  (returns.map (fun r => (r - mean returns) ^ 2)).sum / returns.length

theorem calculateDailyReturns_eq_map (portfolioHistory : List PortfolioRecord) :
    calculateDailyReturns portfolioHistory =
      dailyReturns (portfolioHistory.map PortfolioRecord.totalValue) := by
  simp only [calculateDailyReturns, dailyReturns]
  conv_rhs => rw [← List.map_tail, List.zip_map, List.map_map]
  rfl

theorem dailyReturns_length (values : List ℚ) :
    (dailyReturns values).length = values.length - 1 := by
  simp only [dailyReturns, List.length_map, List.length_zip, List.length_tail]
  omega

theorem popVariance_nonneg (returns : List ℚ) : 0 ≤ popVariance returns := by
  apply div_nonneg
  · apply List.sum_nonneg
    intro x hx
    obtain ⟨r, _, rfl⟩ := List.mem_map.mp hx
    exact sq_nonneg _
  · exact Nat.cast_nonneg _

/-- RiskManagementService.calculateVaR: sort the returns ascending, take the
return at index floor((1 − confidence) × n), report its absolute value;
0 for an empty input. (JavaScript's sort-with-comparator is modelled by
insertion sort; the characterization theorem below shows any ascending sort
gives the same answer.) -/
def calculateVaR (returns : List ℚ) (confidence : ℚ) : ℚ :=
  if returns = [] then 0
  else
    let sortedReturns := List.insertionSort (· ≤ ·) returns
    let index := (⌊(1 - confidence) * sortedReturns.length⌋).toNat
    |sortedReturns.getD index 0|

/-- C5: the 95% VaR of a return list is the absolute value of the entry at
index floor((1 − 0.95) × n) of the returns sorted ascending (stated against
an arbitrary ascending sorting of the list), and the VaR of the empty list
is 0. -/
theorem calculateVaR_spec (returns : List ℚ) :
    (returns = [] → calculateVaR returns 0.95 = 0) ∧
    (∀ s : List ℚ, returns.Perm s → s.Sorted (· ≤ ·) →
      calculateVaR returns 0.95 =
        |s.getD (⌊(1 - (0.95 : ℚ)) * returns.length⌋).toNat 0|) := by
  constructor
  · intro h
    simp [calculateVaR, h]
  · intro s hperm hsorted
    by_cases hnil : returns = []
    · subst hnil
      have hs : s = [] := hperm.symm.eq_nil
      subst hs
      simp [calculateVaR]
    · have hsort_eq : List.insertionSort (· ≤ ·) returns = s :=
        @List.eq_of_perm_of_sorted ℚ (· ≤ ·) ⟨fun _ _ => le_antisymm⟩ _ _
          ((List.perm_insertionSort _ returns).trans hperm)
          (List.sorted_insertionSort _ returns) hsorted
      have hlen : (List.insertionSort (· ≤ ·) returns).length = returns.length :=
        (List.perm_insertionSort _ returns).length_eq
      simp only [calculateVaR, if_neg hnil]
      rw [hlen, hsort_eq]

/-- C5 witness: for the five returns [3, −2, 5, −4, 1], n = 5 gives index
floor(0.05 × 5) = 0, the smallest return −4, hence VaR 4; and the empty list
gives 0. -/
theorem calculateVaR_spec_witness :
    calculateVaR ([] : List ℚ) 0.95 = 0 ∧ calculateVaR [3, -2, 5, -4, 1] 0.95 = 4 := by
  constructor
  · exact (calculateVaR_spec []).1 rfl
  · have h := (calculateVaR_spec [3, -2, 5, -4, 1]).2 [-4, -2, 1, 3, 5]
      (by decide) (by decide)
    rw [h]
    norm_num

/-! ## Volatility and Sharpe ratio (real-valued: they take square roots) -/

/-- RiskManagementService.calculateVolatility: annualized volatility, the
square root of the population variance of the daily returns times sqrt(252);
0 for an empty return list. -/
noncomputable def calculateVolatility (returns : List ℚ) : ℝ :=
  if returns = [] then 0
  else
    let mean : ℚ := returns.sum / returns.length
    let variance : ℚ := (returns.map (fun r => (r - mean) ^ 2)).sum / returns.length
    Real.sqrt (variance : ℝ) * Real.sqrt 252

/-- RiskManagementService.calculateSharpeRatio (named calculateSharpe here):
(annualized mean return − risk-free rate) / annualized volatility, with
explicit zero guards for the empty list and for zero volatility.  The
source's default riskFreeRate argument is 0.05. -/
noncomputable def calculateSharpe (returns : List ℚ) (riskFreeRate : ℚ) : ℝ :=
  if returns = [] then 0
  else
    let meanReturn := returns.sum / returns.length
    let annualizedReturn := meanReturn * 252
    let volatility := calculateVolatility returns
    if volatility > 0 then ((annualizedReturn : ℝ) - (riskFreeRate : ℝ)) / volatility else 0

/-- The Sharpe-ratio computation at the end of
BacktestingService.simulateBacktest (named simSharpe here), as a function of
the dailyValues value series: mean over population standard deviation of the
consecutive daily returns, times sqrt(252), guarded to 0 when the standard
deviation is not strictly positive.  (For an empty return series JavaScript
reaches the guard with NaN and ℚ with 0; both take the else branch, so the
returned value agrees.) -/
noncomputable def simSharpe (values : List ℚ) : ℝ :=
  let returns := dailyReturns values
  let avgReturn := returns.sum / returns.length
  let returnStd :=
    Real.sqrt (((returns.map (fun ret => (ret - avgReturn) ^ 2)).sum / returns.length : ℚ) : ℝ)
  if returnStd > 0 then ((avgReturn : ℝ) / returnStd) * Real.sqrt 252 else 0

theorem calculateVolatility_eq (returns : List ℚ) :
    calculateVolatility returns = Real.sqrt ((popVariance returns : ℝ)) * Real.sqrt 252 := by
  by_cases h : returns = []
  · subst h
    simp [calculateVolatility, popVariance, mean]
  · simp only [calculateVolatility, if_neg h, popVariance, mean]

/-- C6: the live-risk Sharpe ratio is (mean × 252 − 0.05) / annualized
volatility, where the annualized volatility is the population standard
deviation times sqrt(252); it is 0 when the return list is empty or the
annualized volatility is 0. -/
theorem calculateSharpe_spec (returns : List ℚ) :
    calculateVolatility returns = Real.sqrt ((popVariance returns : ℝ)) * Real.sqrt 252 ∧
    (returns = [] → calculateSharpe returns 0.05 = 0) ∧
    (calculateVolatility returns = 0 → calculateSharpe returns 0.05 = 0) ∧
    (0 < calculateVolatility returns →
      calculateSharpe returns 0.05 =
        (((mean returns * 252 : ℚ) : ℝ) - ((0.05 : ℚ) : ℝ)) /
          (Real.sqrt ((popVariance returns : ℝ)) * Real.sqrt 252)) := by
  refine ⟨calculateVolatility_eq returns, ?_, ?_, ?_⟩
  · intro h
    simp [calculateSharpe, h]
  · intro h
    by_cases hnil : returns = []
    · simp [calculateSharpe, hnil]
    · have hng : ¬ (calculateVolatility returns > 0) := by
        rw [h]
        exact lt_irrefl 0
      simp only [calculateSharpe, if_neg hnil, if_neg hng]
  · intro h
    have hnil : returns ≠ [] := by
      intro hn
      rw [hn] at h
      simp [calculateVolatility] at h
    simp only [calculateSharpe, if_neg hnil, if_pos h]
    rw [calculateVolatility_eq]
    simp only [mean]

/-- C6 witness: the returns [0.1, 0.3] have strictly positive volatility and
the formula applies; the zero-variance returns [0.01, 0.01, 0.01] give 0. -/
theorem calculateSharpe_spec_witness :
    calculateSharpe [0.1, 0.3] 0.05 =
        (((mean [0.1, 0.3] * 252 : ℚ) : ℝ) - ((0.05 : ℚ) : ℝ)) /
          (Real.sqrt ((popVariance [0.1, 0.3] : ℝ)) * Real.sqrt 252) ∧
      calculateSharpe [0.01, 0.01, 0.01] 0.05 = 0 := by
  constructor
  · apply (calculateSharpe_spec [0.1, 0.3]).2.2.2
    rw [(calculateSharpe_spec [0.1, 0.3]).1]
    have hvar : popVariance [0.1, 0.3] = 1 / 100 := by
      norm_num [popVariance, mean]
    rw [hvar]
    have h1 : (0:ℝ) < Real.sqrt (((1 / 100 : ℚ) : ℝ)) := by
      apply Real.sqrt_pos.mpr
      norm_num
    have h2 : (0:ℝ) < Real.sqrt 252 := by
      apply Real.sqrt_pos.mpr
      norm_num
    exact mul_pos h1 h2
  · apply (calculateSharpe_spec [0.01, 0.01, 0.01]).2.2.1
    rw [(calculateSharpe_spec [0.01, 0.01, 0.01]).1]
    have hvar : popVariance [0.01, 0.01, 0.01] = 0 := by
      norm_num [popVariance, mean]
    rw [hvar]
    simp

/-- C4: the backtest-path Sharpe ratio is 0 whenever the consecutive-returns
series is empty, is a single element, or has zero variance, and otherwise is
(mean / population standard deviation) × sqrt(252). -/
theorem simSharpe_spec (values : List ℚ) :
    (dailyReturns values = [] → simSharpe values = 0) ∧
    (∀ r : ℚ, dailyReturns values = [r] → simSharpe values = 0) ∧
    (popVariance (dailyReturns values) = 0 → simSharpe values = 0) ∧
    (0 < popVariance (dailyReturns values) →
      simSharpe values =
        ((mean (dailyReturns values) : ℝ) /
          Real.sqrt ((popVariance (dailyReturns values) : ℝ))) * Real.sqrt 252) := by
  have key : simSharpe values =
      if Real.sqrt ((popVariance (dailyReturns values) : ℝ)) > 0
      then ((mean (dailyReturns values) : ℝ) /
        Real.sqrt ((popVariance (dailyReturns values) : ℝ))) * Real.sqrt 252
      else 0 := by
    simp only [simSharpe, popVariance, mean]
  have hzero : popVariance (dailyReturns values) = 0 → simSharpe values = 0 := by
    intro h
    rw [key, h]
    simp
  refine ⟨?_, ?_, hzero, ?_⟩
  · intro h
    apply hzero
    rw [h]
    norm_num [popVariance, mean]
  · intro r h
    apply hzero
    rw [h]
    norm_num [popVariance, mean]
  · intro h
    rw [key, if_pos]
    exact Real.sqrt_pos.mpr (by exact_mod_cast h)

/-- C4 witness: the value series [100, 110, 100] has returns of positive
variance and the formula applies; the constant series [1, 1, 1] has
zero-variance returns and Sharpe ratio 0. -/
theorem simSharpe_spec_witness :
    simSharpe [100, 110, 100] =
        ((mean (dailyReturns [100, 110, 100]) : ℝ) /
          Real.sqrt ((popVariance (dailyReturns [100, 110, 100]) : ℝ))) * Real.sqrt 252 ∧
      simSharpe [1, 1, 1] = 0 := by
  constructor
  · apply (simSharpe_spec [100, 110, 100]).2.2.2
    norm_num [popVariance, mean, dailyReturns]
  · exact (simSharpe_spec [1, 1, 1]).2.2.1 (by norm_num [popVariance, mean, dailyReturns])

/-! ## The backtesting simulation -/

/-- Trade side. -/
inductive Side where
  | BUY
  | SELL
deriving DecidableEq

/-- A trade synthesized during the simulation (BacktestTrade in the source). -/
structure BacktestTrade where
  date : ℤ
  symbol : String
  side : Side
  quantity : ℕ
  price : ℚ
  pnl : ℚ
deriving DecidableEq

/-- The random draws a single day of simulateBacktest consumes: none models
the 90% no-trade branch, some carries the drawn symbol, side, quantity,
price and P&L of the 10% branch (the trade's date is filled in by the
loop). -/
structure TradeDraw where
  symbol : String
  side : Side
  quantity : ℕ
  price : ℚ
  pnl : ℚ
deriving DecidableEq

/-- A BacktestRequest: strategy id, start and end dates as millisecond epoch
timestamps (what new Date(...).getTime() yields), initial capital. -/
structure BacktestRequest where
  strategyId : ℕ
  startDate : ℤ
  endDate : ℤ
  initialCapital : ℚ
deriving DecidableEq

/-- One daily equity-curve entry. -/
structure DailyValue where
  date : ℤ
  value : ℚ
deriving DecidableEq

/-- The mutable state of the simulateBacktest day loop. -/
structure SimState where
  trades : List BacktestTrade
  dailyValues : List DailyValue
  currentValue : ℚ
  maxValue : ℚ
  maxDrawdown : ℚ
deriving DecidableEq

/-- Milliseconds per day, 1000 × 60 × 60 × 24. -/
def msPerDay : ℤ := 1000 * 60 * 60 * 24

/-- One iteration of the simulateBacktest day loop: with the day's draw,
possibly append a trade and add its P&L to the running value; always record
a DailyValue; update the running peak and the running max drawdown. -/
def simDay (startDate : ℤ) (rand : ℕ → Option TradeDraw) (st : SimState) (i : ℕ) : SimState :=
  let currentDate := startDate + (i : ℤ) * msPerDay
  let st1 :=
    match rand i with
    | some draw =>
      { st with
        trades := st.trades ++
          [(⟨currentDate, draw.symbol, draw.side, draw.quantity, draw.price, draw.pnl⟩ :
            BacktestTrade)],
        currentValue := st.currentValue + draw.pnl }
    | none => st
  let st2 :=
    { st1 with
      dailyValues := st1.dailyValues ++ [(⟨currentDate, st1.currentValue⟩ : DailyValue)] }
  let maxValue := if st2.currentValue > st2.maxValue then st2.currentValue else st2.maxValue
  let drawdown := (maxValue - st2.currentValue) / maxValue * 100
  { st2 with
    maxValue := maxValue
    maxDrawdown := if drawdown > st2.maxDrawdown then drawdown else st2.maxDrawdown }

/-- The part of the simulateBacktest result that the day loop produces (the
derived Sharpe ratio is simSharpe of the value series, and the profit factor
is profitFactor of the trades, defined separately below). -/
structure BacktestResultCore where
  trades : List BacktestTrade
  dailyValues : List DailyValue
  maxDrawdown : ℚ
deriving DecidableEq

/-- BacktestingService.simulateBacktest: daysDiff is Math.floor of the day
span of the requested range (ℤ division by the positive msPerDay is floor
division; the lemma daysDiff_eq_floor below records this), and the loop runs
for day indices 0..daysDiff inclusive (not at all when daysDiff is
negative), starting from the initial capital with peak = initial capital and
max drawdown 0. -/
def simulateBacktest (request : BacktestRequest) (rand : ℕ → Option TradeDraw) :
    BacktestResultCore :=
  let daysDiff : ℤ := (request.endDate - request.startDate) / msPerDay
  let final := (List.range (daysDiff + 1).toNat).foldl
    (simDay request.startDate rand)
    ⟨[], [], request.initialCapital, request.initialCapital, 0⟩
  ⟨final.trades, final.dailyValues, final.maxDrawdown⟩

/-- ℤ division by msPerDay is exactly Math.floor of the exact rational day
quotient, so simulateBacktest's daysDiff embeds the source faithfully. -/
theorem daysDiff_eq_floor (a : ℤ) : a / msPerDay = ⌊((a : ℚ) / ((msPerDay : ℤ) : ℚ))⌋ := by
  have h : msPerDay = ((86400000 : ℕ) : ℤ) := by decide
  rw [h, Int.cast_natCast]
  exact (Rat.floor_intCast_div_natCast a 86400000).symm

/-- The profit-factor computation at the end of simulateBacktest: gross
profit over the absolute gross loss, with the sentinel 999 when there is no
loss but positive profit and 0 when neither. -/
def profitFactor (trades : List BacktestTrade) : ℚ :=
  let profits := ((trades.filter (fun t => decide (t.pnl > 0))).map BacktestTrade.pnl).sum
  let losses := |((trades.filter (fun t => decide (t.pnl < 0))).map BacktestTrade.pnl).sum|
  if losses > 0 then profits / losses else if profits > 0 then 999 else 0

/-- Sum of P&L over the strictly winning trades (the spec's gross profit). -/
def grossProfit (trades : List BacktestTrade) : ℚ :=
  ((trades.filter (fun t => decide (t.pnl > 0))).map BacktestTrade.pnl).sum

/-- Signed sum of P&L over the strictly losing trades; the spec's gross loss
is its absolute value. -/
def grossLossSum (trades : List BacktestTrade) : ℚ :=
  ((trades.filter (fun t => decide (t.pnl < 0))).map BacktestTrade.pnl).sum

/-- The persisted fields of BacktestingService.runBacktest that derive from
the simulation result (storage and strategy lookup are external
collaborators; a resolvable strategy is a precondition).  finalValue embeds
JavaScript's dailyValues[length − 1]?.value || initialCapital, whose falsy
fallback also fires when the last daily value is exactly 0. -/
structure BacktestRun where
  strategyId : ℕ
  initialCapital : ℚ
  finalValue : ℚ
  totalReturn : ℚ
  maxDrawdown : ℚ
  sharpe : ℝ
  totalTrades : ℕ
  winningTrades : ℕ
  losingTrades : ℕ
  pf : ℚ
  results : BacktestResultCore

/-- BacktestingService.runBacktest as a function of the request and the
random draws. -/
noncomputable def runBacktest (request : BacktestRequest) (rand : ℕ → Option TradeDraw) :
    BacktestRun :=
  let result := simulateBacktest request rand
  let finalValue :=
    match result.dailyValues.getLast? with
    | some d => if d.value = 0 then request.initialCapital else d.value
    | none => request.initialCapital
  let totalReturn := (finalValue - request.initialCapital) / request.initialCapital * 100
  ⟨request.strategyId, request.initialCapital, finalValue, totalReturn, result.maxDrawdown,
    simSharpe (result.dailyValues.map DailyValue.value),
    result.trades.length,
    (result.trades.filter (fun t => decide (t.pnl > 0))).length,
    (result.trades.filter (fun t => decide (t.pnl < 0))).length,
    profitFactor result.trades,
    result⟩

/-! ## Structure of the day loop -/

theorem simDay_dailyValues (s : ℤ) (rand : ℕ → Option TradeDraw) (st : SimState) (i : ℕ) :
    (simDay s rand st i).dailyValues =
      st.dailyValues ++
        [(⟨s + (i : ℤ) * msPerDay, (simDay s rand st i).currentValue⟩ : DailyValue)] := by
  cases h : rand i <;> simp [simDay, h]

theorem simDay_dd (s : ℤ) (rand : ℕ → Option TradeDraw) (st : SimState) (i : ℕ) :
    ((simDay s rand st i).maxValue, (simDay s rand st i).maxDrawdown) =
      ddStep (st.maxValue, st.maxDrawdown) (simDay s rand st i).currentValue := by
  cases h : rand i <;> simp [simDay, h, ddStep]

theorem simDay_length (s : ℤ) (rand : ℕ → Option TradeDraw) (st : SimState) (i : ℕ) :
    (simDay s rand st i).dailyValues.length = st.dailyValues.length + 1 := by
  rw [simDay_dailyValues]
  simp

theorem foldl_simDay_length (s : ℤ) (rand : ℕ → Option TradeDraw) (l : List ℕ) :
    ∀ st : SimState,
      ((l.foldl (simDay s rand) st).dailyValues).length = st.dailyValues.length + l.length := by
  induction l with
  | nil => intro st; simp
  | cons i t ih =>
    intro st
    simp only [List.foldl_cons, List.length_cons, ih, simDay_length]
    omega

/-- The loop invariant tying the in-loop peak/max-drawdown pair to the ddFold
recurrence over the value series recorded so far. -/
theorem foldl_simDay_dd (s : ℤ) (rand : ℕ → Option TradeDraw) (p0 : ℚ) (l : List ℕ) :
    ∀ st : SimState,
      (st.maxValue, st.maxDrawdown) = ddFold (p0, 0) (st.dailyValues.map DailyValue.value) →
      ((l.foldl (simDay s rand) st).maxValue, (l.foldl (simDay s rand) st).maxDrawdown) =
        ddFold (p0, 0) (((l.foldl (simDay s rand) st).dailyValues).map DailyValue.value) := by
  induction l with
  | nil => intro st h; simpa using h
  | cons i t ih =>
    intro st h
    simp only [List.foldl_cons]
    apply ih
    rw [simDay_dd, simDay_dailyValues, List.map_append, List.map_cons, List.map_nil,
      ddFold_concat, ← h]

/-- The spec's inclusive calendar-day count between day indices a and b. -/
def inclusiveDayCount (a b : ℤ) : ℤ :=
  b - a + 1

/-- C7: for a request whose dates are the midnights of calendar days a ≤ b
(day-aligned timestamps msPerDay·a and msPerDay·b), the simulation produces
exactly the inclusive day count b − a + 1 of DailyValue entries. -/
theorem simulateBacktest_dailyValues_length (strategyId : ℕ) (cap : ℚ)
    (rand : ℕ → Option TradeDraw) (a b : ℤ) (hab : a ≤ b) :
    (((simulateBacktest ⟨strategyId, msPerDay * a, msPerDay * b, cap⟩ rand).dailyValues).length
        : ℤ) = inclusiveDayCount a b := by
  simp only [simulateBacktest]
  rw [foldl_simDay_length]
  have hdays : (msPerDay * b - msPerDay * a) / msPerDay = b - a := by
    rw [← mul_sub]
    exact Int.mul_ediv_cancel_left _ (by decide)
  simp only [List.length_range, List.length_nil, Nat.zero_add, hdays]
  rw [Int.toNat_of_nonneg (by omega)]
  simp [inclusiveDayCount]

/-- C7 witness: a one-day range (start = end = day 0) yields exactly one
DailyValue entry. -/
theorem simulateBacktest_dailyValues_length_witness :
    (((simulateBacktest ⟨1, msPerDay * 0, msPerDay * 0, 10000⟩ (fun _ => none)).dailyValues).length
        : ℤ) = inclusiveDayCount 0 0 ∧ inclusiveDayCount 0 0 = 1 :=
  ⟨simulateBacktest_dailyValues_length 1 10000 (fun _ => none) 0 0 (le_refl 0), by decide⟩

/-- C8 (amended): the max drawdown computed incrementally inside the
simulation loop equals the post-hoc running-peak computation applied to the
DailyValue sequence with the initial capital prepended as the seed value.
(Applied to the DailyValue sequence alone the equality fails, see the
counterexample: the loop's peak starts at the initial capital, before the
first day's trade.) -/
theorem simulateBacktest_maxDrawdown_posthoc (request : BacktestRequest)
    (rand : ℕ → Option TradeDraw) :
    (simulateBacktest request rand).maxDrawdown =
      (calculateDrawdown
        ((⟨request.startDate, request.initialCapital⟩ : PortfolioRecord) ::
          (simulateBacktest request rand).dailyValues.map
            (fun d => (⟨d.date, d.value⟩ : PortfolioRecord)))).maxDrawdown := by
  rw [calculateDrawdown_maxDrawdown_eq_ddFold]
  simp only [List.map_cons, List.map_map]
  have hmap : (simulateBacktest request rand).dailyValues.map
      (PortfolioRecord.totalValue ∘ fun d => (⟨d.date, d.value⟩ : PortfolioRecord)) =
        (simulateBacktest request rand).dailyValues.map DailyValue.value := rfl
  rw [hmap, ddFold_cons]
  have hstep0 : ddStep
      ((⟨request.startDate, request.initialCapital⟩ : PortfolioRecord).totalValue, 0)
      request.initialCapital = (request.initialCapital, 0) := by
    simp [ddStep]
  rw [hstep0]
  have hsim := foldl_simDay_dd request.startDate rand request.initialCapital
    (List.range (((request.endDate - request.startDate) / msPerDay + 1)).toNat)
    ⟨[], [], request.initialCapital, request.initialCapital, 0⟩ (by simp [ddFold])
  exact congrArg Prod.snd hsim

/-- C8 counterexample: one simulated day with a −500 trade from capital 1000
gives an in-loop max drawdown of 50%, while the post-hoc computation on the
resulting DailyValue sequence [500] alone gives 0%. -/
theorem simulateBacktest_maxDrawdown_posthoc_cex :
    (simulateBacktest ⟨1, 0, 0, 1000⟩
        (fun i => if i = 0 then some ⟨"AAPL", Side.BUY, 1, 100, -500⟩ else none)).maxDrawdown
        = 50 ∧
      (calculateDrawdown ((simulateBacktest ⟨1, 0, 0, 1000⟩
        (fun i => if i = 0 then some ⟨"AAPL", Side.BUY, 1, 100, -500⟩ else none)).dailyValues.map
          (fun d => (⟨d.date, d.value⟩ : PortfolioRecord)))).maxDrawdown = 0 := by
  constructor
  · norm_num [simulateBacktest, simDay, msPerDay, List.range_succ, List.range_zero,
      Int.toNat_ofNat]
  · norm_num [simulateBacktest, simDay, msPerDay, List.range_succ, List.range_zero,
      Int.toNat_ofNat, calculateDrawdown]

/-! ## finalValue and profit factor -/

/-- C1 (amended): the persisted finalValue is the last daily value when the
sequence is non-empty and that value is non-zero; it is the request's
initial capital when the sequence is empty, and ALSO when the last daily
value is exactly 0, because the JavaScript || fallback treats 0 as falsy
(see the counterexample). -/
theorem runBacktest_finalValue_spec (request : BacktestRequest) (rand : ℕ → Option TradeDraw) :
    ((runBacktest request rand).results.dailyValues = [] →
      (runBacktest request rand).finalValue = request.initialCapital) ∧
    (∀ d : DailyValue, (runBacktest request rand).results.dailyValues.getLast? = some d →
      d.value ≠ 0 → (runBacktest request rand).finalValue = d.value) ∧
    (∀ d : DailyValue, (runBacktest request rand).results.dailyValues.getLast? = some d →
      d.value = 0 → (runBacktest request rand).finalValue = request.initialCapital) := by
  have hres : (runBacktest request rand).results = simulateBacktest request rand := rfl
  have hfv : (runBacktest request rand).finalValue =
      (match (simulateBacktest request rand).dailyValues.getLast? with
        | some d => if d.value = 0 then request.initialCapital else d.value
        | none => request.initialCapital) := rfl
  refine ⟨?_, ?_, ?_⟩
  · intro h
    rw [hres] at h
    rw [hfv, h]
    rfl
  · intro d hd hne
    rw [hres] at hd
    rw [hfv, hd]
    simp [hne]
  · intro d hd hzero
    rw [hres] at hd
    rw [hfv, hd]
    simp [hzero]

/-- C1 counterexample: two days of −500 trades from capital 1000 end at a
last daily value of exactly 0, yet finalValue is the initial capital 1000,
not the last daily value. -/
theorem runBacktest_finalValue_cex :
    (runBacktest ⟨1, 0, 86400000, 1000⟩
        (fun i => if i ≤ 1 then some ⟨"AAPL", Side.BUY, 1, 100, -500⟩ else
          none)).results.dailyValues.getLast? = some ⟨86400000, 0⟩ ∧
      (runBacktest ⟨1, 0, 86400000, 1000⟩
        (fun i => if i ≤ 1 then some ⟨"AAPL", Side.BUY, 1, 100, -500⟩ else
          none)).finalValue = 1000 ∧
      ((1000 : ℚ) ≠ 0) := by
  refine ⟨?_, ?_, by norm_num⟩
  · norm_num [runBacktest, simulateBacktest, simDay, msPerDay, List.range_succ,
      List.range_zero, show Int.toNat 2 = 2 from rfl]
  · norm_num [runBacktest, simulateBacktest, simDay, msPerDay, List.range_succ,
      List.range_zero, show Int.toNat 2 = 2 from rfl]

/-- C1 witness: a one-day run with no trades keeps the capital at 1000, and
finalValue is that (non-zero) last daily value. -/
theorem runBacktest_finalValue_spec_witness :
    (runBacktest ⟨1, 0, 0, 1000⟩ (fun _ => none)).finalValue = 1000 := by
  apply (runBacktest_finalValue_spec ⟨1, 0, 0, 1000⟩ (fun _ => none)).2.1 ⟨0, 1000⟩
  · norm_num [runBacktest, simulateBacktest, simDay, msPerDay, List.range_succ,
      List.range_zero, show Int.toNat 1 = 1 from rfl]
  · norm_num

/-- Sum of a non-empty list of strictly negative rationals is negative. -/
theorem sum_neg_of_all_neg (l : List ℚ) (hne : l ≠ []) (h : ∀ x ∈ l, x < 0) : l.sum < 0 := by
  induction l with
  | nil => exact absurd rfl hne
  | cons x xs ih =>
    simp only [List.sum_cons]
    have hx := h x (List.mem_cons_self x xs)
    rcases eq_or_ne xs [] with h1 | h1
    · subst h1
      simpa using hx
    · have := ih h1 (fun y hy => h y (List.mem_cons_of_mem x hy))
      linarith

theorem grossProfit_nonneg (trades : List BacktestTrade) : 0 ≤ grossProfit trades := by
  apply List.sum_nonneg
  intro x hx
  obtain ⟨t, ht, rfl⟩ := List.mem_map.mp hx
  have := List.mem_filter.mp ht
  have hpos : t.pnl > 0 := of_decide_eq_true this.2
  exact le_of_lt hpos

/-- C3: the profit factor is never negative; when some trade loses it is
gross profit over the absolute gross loss; when no trade loses it is 999 for
strictly positive gross profit and 0 otherwise. -/
theorem profitFactor_spec (trades : List BacktestTrade) :
    0 ≤ profitFactor trades ∧
    ((∃ t ∈ trades, t.pnl < 0) →
      profitFactor trades = grossProfit trades / |grossLossSum trades|) ∧
    ((∀ t ∈ trades, ¬ t.pnl < 0) →
      profitFactor trades = if 0 < grossProfit trades then 999 else 0) := by
  have key : profitFactor trades =
      if |grossLossSum trades| > 0 then grossProfit trades / |grossLossSum trades|
      else if grossProfit trades > 0 then 999 else 0 := rfl
  refine ⟨?_, ?_, ?_⟩
  · rw [key]
    split_ifs with h1 h2
    · exact div_nonneg (grossProfit_nonneg trades) (abs_nonneg _)
    · norm_num
    · exact le_refl 0
  · rintro ⟨t, ht, htneg⟩
    have htf : t ∈ trades.filter (fun t => decide (t.pnl < 0)) :=
      List.mem_filter.mpr ⟨ht, decide_eq_true htneg⟩
    have htm : t.pnl ∈ (trades.filter (fun t => decide (t.pnl < 0))).map BacktestTrade.pnl :=
      List.mem_map_of_mem BacktestTrade.pnl htf
    have hsum : grossLossSum trades < 0 := by
      apply sum_neg_of_all_neg _ (List.ne_nil_of_mem htm)
      intro x hx
      obtain ⟨u, hu, rfl⟩ := List.mem_map.mp hx
      exact of_decide_eq_true (List.mem_filter.mp hu).2
    rw [key, if_pos (abs_pos.mpr (ne_of_lt hsum))]
  · intro h
    have hfil : trades.filter (fun t => decide (t.pnl < 0)) = [] := by
      rw [List.filter_eq_nil_iff]
      intro t ht
      simpa using h t ht
    have hls : grossLossSum trades = 0 := by
      simp [grossLossSum, hfil]
    rw [key, hls]
    norm_num

/-- C3 witness: the spec's trade scenario with P&L 100, −50, 200, −30 has
profit factor (100+200)/(50+30) = 15/4 = 3.75, and a single winning trade
with no losers gives the 999 sentinel. -/
theorem profitFactor_spec_witness :
    profitFactor [⟨0, "AAPL", Side.BUY, 1, 10, 100⟩, ⟨1, "AAPL", Side.SELL, 1, 10, -50⟩,
        ⟨2, "MSFT", Side.BUY, 1, 10, 200⟩, ⟨3, "MSFT", Side.SELL, 1, 10, -30⟩] = 15 / 4 ∧
      profitFactor [⟨0, "AAPL", Side.BUY, 1, 10, 100⟩] = 999 := by
  constructor
  · rw [(profitFactor_spec _).2.1
      ⟨⟨1, "AAPL", Side.SELL, 1, 10, -50⟩, by norm_num, by norm_num⟩]
    have hgp : grossProfit [⟨0, "AAPL", Side.BUY, 1, 10, 100⟩,
        ⟨1, "AAPL", Side.SELL, 1, 10, -50⟩, ⟨2, "MSFT", Side.BUY, 1, 10, 200⟩,
        ⟨3, "MSFT", Side.SELL, 1, 10, -30⟩] = 300 := by
      norm_num [grossProfit, List.filter]
    have hgl : grossLossSum [⟨0, "AAPL", Side.BUY, 1, 10, 100⟩,
        ⟨1, "AAPL", Side.SELL, 1, 10, -50⟩, ⟨2, "MSFT", Side.BUY, 1, 10, 200⟩,
        ⟨3, "MSFT", Side.SELL, 1, 10, -30⟩] = -80 := by
      norm_num [grossLossSum, List.filter]
    rw [hgp, hgl]
    rw [show |(-80 : ℚ)| = 80 from by rw [abs_of_neg] <;> norm_num]
    norm_num
  · rw [(profitFactor_spec _).2.2 (by norm_num)]
    have hgp : grossProfit [⟨0, "AAPL", Side.BUY, 1, 10, 100⟩] = 100 := by
      norm_num [grossProfit, List.filter]
    rw [hgp]
    norm_num

/-! ## Portfolio risk metrics -/

/-- The record RiskManagementService.getPortfolioRiskMetrics returns. -/
structure PortfolioRiskMetrics where
  totalValue : ℚ
  dailyPnL : ℚ
  weeklyPnL : ℚ
  monthlyPnL : ℚ
  maxDrawdown : ℚ
  currentDrawdown : ℚ
  sharpe : ℝ
  volatility : ℝ
  varDaily : ℚ

/-- RiskManagementService.getPortfolioRiskMetrics as a function of the
fetched portfolio-history window and of the current clock reading
(Date.now(), in milliseconds), which the source consults to locate the
records one day / one week / one month old.  The aggregated calculateDrawdown
call re-fetches the same 365-record window, so it is the same history. -/
noncomputable def getPortfolioRiskMetrics (portfolioHistory : List PortfolioRecord)
    (now : ℤ) : PortfolioRiskMetrics :=
  if portfolioHistory = [] then ⟨0, 0, 0, 0, 0, 0, 0, 0, 0⟩
  else
    let current := portfolioHistory.getLast?.getD ⟨0, 0⟩
    let dailyReturnsList := calculateDailyReturns portfolioHistory
    let oneDayAgo :=
      portfolioHistory.find? (fun h => decide (h.timestamp ≥ now - 24 * 60 * 60 * 1000))
    let oneWeekAgo :=
      portfolioHistory.find? (fun h => decide (h.timestamp ≥ now - 7 * 24 * 60 * 60 * 1000))
    let oneMonthAgo :=
      portfolioHistory.find? (fun h => decide (h.timestamp ≥ now - 30 * 24 * 60 * 60 * 1000))
    let dailyPnL := match oneDayAgo with
      | some h => current.totalValue - h.totalValue
      | none => 0
    let weeklyPnL := match oneWeekAgo with
      | some h => current.totalValue - h.totalValue
      | none => 0
    let monthlyPnL := match oneMonthAgo with
      | some h => current.totalValue - h.totalValue
      | none => 0
    let drawdown := calculateDrawdown portfolioHistory
    ⟨current.totalValue, dailyPnL, weeklyPnL, monthlyPnL, drawdown.maxDrawdown,
      drawdown.currentDrawdown, calculateSharpe dailyReturnsList 0.05,
      calculateVolatility dailyReturnsList, calculateVaR dailyReturnsList 0.95⟩

/-- C9 (amended): the risk-metric computation is a deterministic function of
the supplied history window AND of the current clock reading — the clock is
a second input, which the original claim denied (see the counterexample).
Every output field other than the time-based daily/weekly/monthly P&L
depends on the history window alone. -/
theorem getPortfolioRiskMetrics_spec (portfolioHistory : List PortfolioRecord)
    (now1 now2 : ℤ) :
    (getPortfolioRiskMetrics portfolioHistory now1).totalValue =
      (getPortfolioRiskMetrics portfolioHistory now2).totalValue ∧
    (getPortfolioRiskMetrics portfolioHistory now1).maxDrawdown =
      (getPortfolioRiskMetrics portfolioHistory now2).maxDrawdown ∧
    (getPortfolioRiskMetrics portfolioHistory now1).currentDrawdown =
      (getPortfolioRiskMetrics portfolioHistory now2).currentDrawdown ∧
    (getPortfolioRiskMetrics portfolioHistory now1).sharpe =
      (getPortfolioRiskMetrics portfolioHistory now2).sharpe ∧
    (getPortfolioRiskMetrics portfolioHistory now1).volatility =
      (getPortfolioRiskMetrics portfolioHistory now2).volatility ∧
    (getPortfolioRiskMetrics portfolioHistory now1).varDaily =
      (getPortfolioRiskMetrics portfolioHistory now2).varDaily := by
  by_cases h : portfolioHistory = [] <;>
    simp [getPortfolioRiskMetrics, h]

/-- C9 counterexample: for the same two-record history, reading the clock at
two different instants changes the reported daily P&L (200 versus 0), so the
output is not a function of the history window alone. -/
theorem getPortfolioRiskMetrics_cex :
    (getPortfolioRiskMetrics [⟨0, 100⟩, ⟨200000000, 300⟩] 86400000).dailyPnL = 200 ∧
    (getPortfolioRiskMetrics [⟨0, 100⟩, ⟨200000000, 300⟩] 1000000000).dailyPnL = 0 ∧
    getPortfolioRiskMetrics [⟨0, 100⟩, ⟨200000000, 300⟩] 86400000 ≠
      getPortfolioRiskMetrics [⟨0, 100⟩, ⟨200000000, 300⟩] 1000000000 := by
  have h1 : (getPortfolioRiskMetrics [⟨0, 100⟩, ⟨200000000, 300⟩] 86400000).dailyPnL = 200 := by
    norm_num [getPortfolioRiskMetrics, List.find?, List.cons_ne_nil]
  have h2 : (getPortfolioRiskMetrics [⟨0, 100⟩, ⟨200000000, 300⟩] 1000000000).dailyPnL = 0 := by
    norm_num [getPortfolioRiskMetrics, List.find?, List.cons_ne_nil]
  refine ⟨h1, h2, ?_⟩
  intro heq
  have h := congrArg PortfolioRiskMetrics.dailyPnL heq
  rw [h1, h2] at h
  norm_num at h

end AlgoTrade
